import Mathlib

/-!
Shallow embedding of the retail data-analysis pipeline in
`scripts/data_processing.py`, together with proofs about the claims made by
the natural-language specification of that program.

Modelling conventions:
* pandas numeric columns are embedded as `ℚ` (exact rationals); integer
  columns as `ℤ`/`ℕ`.
* IEEE special values produced by divisions (`inf`, `-inf`, `NaN`) are made
  explicit through the `FVal` type, since pandas represents "null" growth
  values as `NaN` while division of a nonzero float by zero yields `inf`.
* `DataFrame.round(2)` uses round-half-to-even, embedded as `round2`.
* pandas `quantile` uses linear interpolation between order statistics,
  embedded as `quantile`.
* timestamps carry an absolute epoch-second value plus the calendar fields
  (`year`, `month`, day-of-week name, hour) that `pd.to_datetime` exposes.
-/

set_option maxHeartbeats 1000000
set_option maxRecDepth 8000

attribute [local semireducible] Rat.add Rat.mul Rat.sub Rat.inv Rat.ofScientific

namespace DataProcessing

/-- Result type for float-valued computations that can produce IEEE special
values: `NaN` (pandas "null"), positive/negative infinity, or a finite value.
-/
inductive FVal where
  | nan : FVal
  | posInf : FVal
  | negInf : FVal
  | fin : ℚ → FVal
deriving DecidableEq, Repr

/-- Round to the nearest integer, ties to even — the rounding used by
numpy/pandas `round`. -/
def roundHalfEven (q : ℚ) : ℤ :=
  if q - ⌊q⌋ < 1/2 then ⌊q⌋
  else if (1:ℚ)/2 < q - ⌊q⌋ then ⌊q⌋ + 1
  else if ⌊q⌋ % 2 = 0 then ⌊q⌋ else ⌊q⌋ + 1

/-- `DataFrame.round(2)`: round to two decimal places, ties to even. -/
def round2 (q : ℚ) : ℚ := (roundHalfEven (q * 100) : ℚ) / 100

/-- pandas `Series.quantile` with the default linear interpolation, applied
to an already ascending-sorted list: position `h = q·(n−1)`, interpolating
between the order statistics at `⌊h⌋` and `⌊h⌋+1`. -/
def quantileOfSorted (xs : List ℚ) (q : ℚ) : ℚ :=
  let h : ℚ := q * ((xs.length : ℚ) - 1)
  let i : ℕ := (⌊h⌋).toNat
  let a := xs.getD i 0
  let b := xs.getD (i + 1) a
  a + (h - (⌊h⌋ : ℚ)) * (b - a)

/-- pandas `Series.quantile` on an arbitrary list of values. -/
def quantile (xs : List ℚ) (q : ℚ) : ℚ :=
  quantileOfSorted (xs.insertionSort (· ≤ ·)) q

/-- A parsed timestamp: absolute time in seconds plus the calendar
decomposition that `pd.to_datetime` exposes (`dt.year`, `dt.month`,
`dt.day_name()`, `dt.hour`). -/
structure DateTime where
  epochSec : ℤ
  year : ℤ
  month : ℕ
  dayOfWeek : String
  hour : ℕ
deriving DecidableEq, Repr

/-- A raw transaction row as loaded from the source table: customer id and
description may be missing, quantity and unit price may be non-positive. -/
structure RawRecord where
  invoiceNo : String
  stockCode : String
  description : Option String
  quantity : ℤ
  unitPrice : ℚ
  customerId : Option String
  invoiceDate : DateTime
deriving DecidableEq, Repr

/-- A row of the cleaned dataframe: all fields populated, plus the derived
columns `TotalAmount`, `Year`, `Month`, `DayOfWeek`, `Hour`. -/
structure CleanedRecord where
  invoiceNo : String
  stockCode : String
  description : String
  quantity : ℤ
  unitPrice : ℚ
  customerId : String
  invoiceDate : DateTime
  year : ℤ
  month : ℕ
  dayOfWeek : String
  hour : ℕ
  totalAmount : ℚ
deriving DecidableEq, Repr

/-- Drop counts reported by `load_and_clean_data` (missing CustomerID,
invalid quantity/price/total, IQR outliers). -/
structure CleaningStats where
  removedCustomers : ℕ
  removedInvalid : ℕ
  removedOutliers : ℕ
deriving DecidableEq, Repr

/-- Stage 1 of `load_and_clean_data`: `df.dropna(subset=['CustomerID'])`. -/
def withCustomer (rs : List RawRecord) : List RawRecord :=
  rs.filter (fun r => r.customerId.isSome)

/-- Stages 2–5 applied to a single surviving row: fill missing description
with the sentinel, coerce the customer id, derive the calendar columns and
`TotalAmount = Quantity * UnitPrice`. -/
def normalizeRecord (r : RawRecord) : CleanedRecord :=
  { invoiceNo := r.invoiceNo
    stockCode := r.stockCode
    description := r.description.getD "Unknown Product"
    quantity := r.quantity
    unitPrice := r.unitPrice
    customerId := r.customerId.getD ""
    invoiceDate := r.invoiceDate
    year := r.invoiceDate.year
    month := r.invoiceDate.month
    dayOfWeek := r.invoiceDate.dayOfWeek
    hour := r.invoiceDate.hour
    totalAmount := (r.quantity : ℚ) * r.unitPrice }

/-- The dataframe after stages 1–5 (before the validity filter). -/
def normalized (rs : List RawRecord) : List CleanedRecord :=
  (withCustomer rs).map normalizeRecord

/-- Stage 6 predicate: `Quantity > 0 & UnitPrice > 0 & TotalAmount > 0`. -/
def isValid (r : CleanedRecord) : Bool :=
  decide (0 < r.quantity) && decide (0 < r.unitPrice) && decide (0 < r.totalAmount)

/-- The dataframe after the validity filter (stage 6); the population from
which the outlier bound is computed. -/
def postValidity (rs : List RawRecord) : List CleanedRecord :=
  (normalized rs).filter isValid

/-- `Q1 - 1.5*IQR` computed from the post-validity-filter `TotalAmount`s. -/
def lowerBound (rs : List RawRecord) : ℚ :=
  let xs := (postValidity rs).map CleanedRecord.totalAmount
  quantile xs (1/4) - 3/2 * (quantile xs (3/4) - quantile xs (1/4))

/-- `Q3 + 1.5*IQR` computed from the post-validity-filter `TotalAmount`s. -/
def upperBound (rs : List RawRecord) : ℚ :=
  let xs := (postValidity rs).map CleanedRecord.totalAmount
  quantile xs (3/4) + 3/2 * (quantile xs (3/4) - quantile xs (1/4))

/-- Stage 7 predicate: `lower_bound ≤ TotalAmount ≤ upper_bound`. -/
def isInlier (lo hi : ℚ) (r : CleanedRecord) : Bool :=
  decide (lo ≤ r.totalAmount) && decide (r.totalAmount ≤ hi)

/-- The final cleaned record set returned by `load_and_clean_data`. -/
def cleanedRecords (rs : List RawRecord) : List CleanedRecord :=
  (postValidity rs).filter (isInlier (lowerBound rs) (upperBound rs))

/-- `load_and_clean_data` (sans I/O): the cleaned rows together with the
per-stage drop counts it reports. -/
def loadAndCleanData (rs : List RawRecord) : List CleanedRecord × CleaningStats :=
  (cleanedRecords rs,
   { removedCustomers := rs.length - (withCustomer rs).length
     removedInvalid := (normalized rs).length - (postValidity rs).length
     removedOutliers := (postValidity rs).length - (cleanedRecords rs).length })

theorem length_withCustomer_le (rs : List RawRecord) :
    (withCustomer rs).length ≤ rs.length :=
  List.length_filter_le _ _

theorem length_postValidity_le (rs : List RawRecord) :
    (postValidity rs).length ≤ (normalized rs).length :=
  List.length_filter_le _ _

theorem length_cleaned_le (rs : List RawRecord) :
    (cleanedRecords rs).length ≤ (postValidity rs).length :=
  List.length_filter_le _ _

theorem length_normalized (rs : List RawRecord) :
    (normalized rs).length = (withCustomer rs).length :=
  List.length_map _ _

/-- C1: for every input sequence, the number of cleaned records plus the
drop counts of the missing-customer, invalid-value and outlier stages equals
the number of raw input records (conservation law). -/
theorem c1_cleaning_conservation (rs : List RawRecord) :
    (loadAndCleanData rs).1.length
      + (loadAndCleanData rs).2.removedCustomers
      + (loadAndCleanData rs).2.removedInvalid
      + (loadAndCleanData rs).2.removedOutliers
      = rs.length := by
  have h1 := length_withCustomer_le rs
  have h2 := length_postValidity_le rs
  have h3 := length_cleaned_le rs
  have h4 := length_normalized rs
  simp only [loadAndCleanData]
  omega

theorem mem_cleaned_elim {rs : List RawRecord} {r : CleanedRecord}
    (h : r ∈ cleanedRecords rs) :
    r ∈ postValidity rs ∧ lowerBound rs ≤ r.totalAmount ∧ r.totalAmount ≤ upperBound rs := by
  rw [cleanedRecords, List.mem_filter] at h
  have h2 := h.2
  simp only [isInlier, Bool.and_eq_true, decide_eq_true_eq] at h2
  exact ⟨h.1, h2.1, h2.2⟩

theorem mem_postValidity_elim {rs : List RawRecord} {r : CleanedRecord}
    (h : r ∈ postValidity rs) :
    r ∈ normalized rs ∧ 0 < r.quantity ∧ 0 < r.unitPrice ∧ 0 < r.totalAmount := by
  rw [postValidity, List.mem_filter] at h
  have := h.2
  simp only [isValid, Bool.and_eq_true, decide_eq_true_eq] at this
  exact ⟨h.1, this.1.1, this.1.2, this.2⟩

theorem mem_normalized_totalAmount {rs : List RawRecord} {r : CleanedRecord}
    (h : r ∈ normalized rs) :
    r.totalAmount = (r.quantity : ℚ) * r.unitPrice := by
  rw [normalized, List.mem_map] at h
  obtain ⟨r0, _, rfl⟩ := h
  rfl

/-- C2: every record in the cleaned set satisfies quantity > 0,
unit price > 0, total amount = quantity × unit price > 0, and total amount
lies within the inlier bound computed once from the post-validity-filter
population. -/
theorem c2_cleaned_invariants (rs : List RawRecord) (r : CleanedRecord)
    (h : r ∈ (loadAndCleanData rs).1) :
    0 < r.quantity ∧ 0 < r.unitPrice ∧
      r.totalAmount = (r.quantity : ℚ) * r.unitPrice ∧ 0 < r.totalAmount ∧
      lowerBound rs ≤ r.totalAmount ∧ r.totalAmount ≤ upperBound rs := by
  have h' : r ∈ cleanedRecords rs := h
  obtain ⟨hpv, hlo, hhi⟩ := mem_cleaned_elim h'
  obtain ⟨hn, hq, hp, ht⟩ := mem_postValidity_elim hpv
  exact ⟨hq, hp, mem_normalized_totalAmount hn, ht, hlo, hhi⟩

/-- A sample timestamp used by the concrete witnesses below. -/
def exDate1 : DateTime :=
  { epochSec := 1609840800, year := 2021, month := 1, dayOfWeek := "Tuesday", hour := 10 }

/-- A single valid raw row: quantity 5, unit price 2, customer present. -/
def exRaw1 : RawRecord :=
  { invoiceNo := "536365", stockCode := "85123A", description := some "LANTERN"
    quantity := 5, unitPrice := 2, customerId := some "17850"
    invoiceDate := exDate1 }

/-- Witness for C2: at the concrete one-row input `[exRaw1]` the cleaned set
contains `normalizeRecord exRaw1`, and the invariants hold of it. -/
theorem c2_cleaned_invariants_witness :
    0 < (normalizeRecord exRaw1).quantity ∧ 0 < (normalizeRecord exRaw1).unitPrice ∧
      (normalizeRecord exRaw1).totalAmount
        = ((normalizeRecord exRaw1).quantity : ℚ) * (normalizeRecord exRaw1).unitPrice ∧
      0 < (normalizeRecord exRaw1).totalAmount ∧
      lowerBound [exRaw1] ≤ (normalizeRecord exRaw1).totalAmount ∧
      (normalizeRecord exRaw1).totalAmount ≤ upperBound [exRaw1] :=
  c2_cleaned_invariants [exRaw1] (normalizeRecord exRaw1) (by decide)

/-- Forget the derived columns of a cleaned row, recovering the raw row that
re-running `load_and_clean_data` on the cleaned dataframe would start from. -/
def toRaw (c : CleanedRecord) : RawRecord :=
  { invoiceNo := c.invoiceNo
    stockCode := c.stockCode
    description := some c.description
    quantity := c.quantity
    unitPrice := c.unitPrice
    customerId := some c.customerId
    invoiceDate := c.invoiceDate }

theorem withCustomer_toRaw (cs : List CleanedRecord) :
    withCustomer (cs.map toRaw) = cs.map toRaw := by
  rw [withCustomer, List.filter_eq_self]
  intro r hr
  rw [List.mem_map] at hr
  obtain ⟨c, _, rfl⟩ := hr
  rfl

theorem isValid_normalize_toRaw {rs : List RawRecord} {c : CleanedRecord}
    (h : c ∈ (loadAndCleanData rs).1) :
    isValid (normalizeRecord (toRaw c)) = true := by
  obtain ⟨hq, hp, -, -, -, -⟩ := c2_cleaned_invariants rs c h
  have hq' : (0 : ℚ) < (c.quantity : ℚ) := by exact_mod_cast hq
  simp only [isValid, normalizeRecord, toRaw, Bool.and_eq_true, decide_eq_true_eq]
  exact ⟨⟨hq, hp⟩, mul_pos hq' hp⟩

/-- C7 (amended): re-cleaning the cleaned output never drops rows at the
missing-customer stage or the invalid-value stage; only the outlier stage
can drop further rows, because its bound is recomputed from the already
trimmed population. -/
theorem c7_reclean_only_outlier_stage_drops (rs : List RawRecord) :
    (loadAndCleanData ((loadAndCleanData rs).1.map toRaw)).2.removedCustomers = 0 ∧
    (loadAndCleanData ((loadAndCleanData rs).1.map toRaw)).2.removedInvalid = 0 := by
  constructor
  · simp only [loadAndCleanData, withCustomer_toRaw, List.length_map, Nat.sub_self]
  · have hfix : postValidity ((cleanedRecords rs).map toRaw)
        = normalized ((cleanedRecords rs).map toRaw) := by
      rw [postValidity, List.filter_eq_self]
      intro x hx
      rw [normalized, withCustomer_toRaw, List.map_map, List.mem_map] at hx
      obtain ⟨c, hc, rfl⟩ := hx
      exact @isValid_normalize_toRaw rs c hc
    simp only [loadAndCleanData, hfix, Nat.sub_self]

/-- A raw row for the C7 counterexample, with unit price `p`. -/
def exRaw7 (p : ℚ) : RawRecord :=
  { invoiceNo := "536400", stockCode := "20000", description := some "ITEM"
    quantity := 1, unitPrice := p, customerId := some "12583"
    invoiceDate := exDate1 }

/-- C7 counterexample input: five valid rows with total amounts
1, 1, 1, 4, 100.  The first cleaning pass drops the 100 (IQR bound
[−3.5, 8.5]); re-cleaning the survivors recomputes the bound as
[−0.125, 2.875] and drops the 4 as a further outlier. -/
def ex7 : List RawRecord :=
  [exRaw7 1, exRaw7 1, exRaw7 1, exRaw7 4, exRaw7 100]

/-- Counterexample to C7 as stated: re-cleaning the cleaned output of `ex7`
drops one more row at the outlier stage, so the cleaned set is not a fixed
point and the second run's statistics are not all zero. -/
theorem c7_idempotence_counterexample :
    (loadAndCleanData ((loadAndCleanData ex7).1.map toRaw)).2.removedOutliers = 1 ∧
    (loadAndCleanData ex7).1.length = 4 ∧
    (loadAndCleanData ((loadAndCleanData ex7).1.map toRaw)).1.length = 3 := by
  refine ⟨by decide, by decide, by decide⟩

/-- One row of the monthly summary produced by `analyze_sales_trends`.
The growth fields hold the value of `pct_change() * 100`, which is `NaN`
for the first period (pandas "null") and can be `±inf` when the previous
value is zero. -/
structure PeriodSummary where
  year : ℤ
  month : ℕ
  totalRevenue : ℚ
  totalTransactions : ℕ
  avgTransactionValue : ℚ
  uniqueCustomers : ℕ
  uniqueProducts : ℕ
  revenueGrowth : FVal
  customerGrowth : FVal
deriving DecidableEq, Repr

/-- Strict chronological order on (year, month) grouping keys. -/
def keyLt (a b : ℤ × ℕ) : Prop := a.1 < b.1 ∨ (a.1 = b.1 ∧ a.2 < b.2)

/-- Reflexive chronological order on (year, month) grouping keys; the order
in which `groupby(['Year', 'Month'])` (and the subsequent sort by the parsed
`YearMonth` date) emits the groups. -/
def keyLe (a b : ℤ × ℕ) : Prop := a.1 < b.1 ∨ (a.1 = b.1 ∧ a.2 ≤ b.2)

instance : DecidableRel keyLt := fun a b => by
  unfold keyLt; infer_instance

instance : DecidableRel keyLe := fun a b => by
  unfold keyLe; infer_instance

instance : IsTotal (ℤ × ℕ) keyLe := ⟨fun a b => by unfold keyLe; omega⟩

instance : IsTrans (ℤ × ℕ) keyLe := ⟨fun a b c hab hbc => by
  unfold keyLe at hab hbc ⊢; omega⟩

theorem keyLe_antisymm {a b : ℤ × ℕ} (h1 : keyLe a b) (h2 : keyLe b a) : a = b := by
  unfold keyLe at h1 h2
  have hy : a.1 = b.1 := by omega
  have hm : a.2 = b.2 := by omega
  exact Prod.ext hy hm

/-- The distinct (Year, Month) keys of a cleaned dataframe, in the ascending
order that `groupby` emits them. -/
def periodKeys (rs : List CleanedRecord) : List (ℤ × ℕ) :=
  ((rs.map (fun r => (r.year, r.month))).dedup).insertionSort keyLe

/-- `pct_change() * 100` between the previous and current value, with IEEE
float semantics for a zero denominator: the first operand zero yields `NaN`
when the current value is also zero and `±inf` otherwise. -/
def pctChange100 (prev cur : ℚ) : FVal :=
  if prev = 0 then
    if cur = 0 then FVal.nan else if 0 < cur then FVal.posInf else FVal.negInf
  else FVal.fin ((cur - prev) / prev * 100)

/-- The aggregation row of one (year, month) group: revenue sum, transaction
count, mean transaction value, distinct customers, distinct products, all
numeric aggregates rounded to two decimals as `agg(...).round(2)` does.
Growth fields are placeholders filled in afterwards. -/
def periodAgg (rs : List CleanedRecord) (k : ℤ × ℕ) : PeriodSummary :=
  let g := rs.filter (fun r => decide (r.year = k.1) && decide (r.month = k.2))
  let tot := (g.map CleanedRecord.totalAmount).sum
  { year := k.1
    month := k.2
    totalRevenue := round2 tot
    totalTransactions := g.length
    avgTransactionValue := round2 (tot / (g.length : ℚ))
    uniqueCustomers := ((g.map CleanedRecord.customerId).dedup).length
    uniqueProducts := ((g.map CleanedRecord.stockCode).dedup).length
    revenueGrowth := FVal.nan
    customerGrowth := FVal.nan }

/-- Fill the growth fields of one summary row from the previous row's
(unrounded-further) stored values; the first row has no previous row and
keeps `NaN` growths. -/
def setGrowth (prev : Option PeriodSummary) (s : PeriodSummary) : PeriodSummary :=
  match prev with
  | none => { s with revenueGrowth := FVal.nan, customerGrowth := FVal.nan }
  | some p =>
    { s with
      revenueGrowth := pctChange100 p.totalRevenue s.totalRevenue
      customerGrowth := pctChange100 (p.uniqueCustomers : ℚ) (s.uniqueCustomers : ℚ) }

/-- `pct_change` down the chronologically sorted summary rows. -/
def addGrowth : Option PeriodSummary → List PeriodSummary → List PeriodSummary
  | _, [] => []
  | prev, s :: rest => setGrowth prev s :: addGrowth (some s) rest

/-- `analyze_sales_trends` (sans printing): group by (Year, Month) in
chronological order, aggregate, then compute period-over-period growth. -/
def analyzeSalesTrends (rs : List CleanedRecord) : List PeriodSummary :=
  addGrowth none ((periodKeys rs).map (periodAgg rs))

theorem setGrowth_totalRevenue (p : Option PeriodSummary) (s : PeriodSummary) :
    (setGrowth p s).totalRevenue = s.totalRevenue := by
  cases p <;> rfl

theorem setGrowth_uniqueCustomers (p : Option PeriodSummary) (s : PeriodSummary) :
    (setGrowth p s).uniqueCustomers = s.uniqueCustomers := by
  cases p <;> rfl

theorem setGrowth_some_revenueGrowth (p s : PeriodSummary) :
    (setGrowth (some p) s).revenueGrowth
      = pctChange100 p.totalRevenue s.totalRevenue := rfl

theorem setGrowth_some_customerGrowth (p s : PeriodSummary) :
    (setGrowth (some p) s).customerGrowth
      = pctChange100 (p.uniqueCustomers : ℚ) (s.uniqueCustomers : ℚ) := rfl

theorem setGrowth_key (p : Option PeriodSummary) (s : PeriodSummary) :
    (setGrowth p s).year = s.year ∧ (setGrowth p s).month = s.month := by
  cases p <;> exact ⟨rfl, rfl⟩

theorem addGrowth_length (p : Option PeriodSummary) (l : List PeriodSummary) :
    (addGrowth p l).length = l.length := by
  induction l generalizing p with
  | nil => rfl
  | cons s rest ih => simp [addGrowth, ih]

theorem addGrowth_get_totalRevenue (l : List PeriodSummary) (p : Option PeriodSummary)
    (i : ℕ) (h : i < (addGrowth p l).length) (h' : i < l.length) :
    ((addGrowth p l).get ⟨i, h⟩).totalRevenue = (l.get ⟨i, h'⟩).totalRevenue := by
  induction l generalizing p i with
  | nil => simp at h'
  | cons s rest ih =>
    cases i with
    | zero => exact setGrowth_totalRevenue p s
    | succ j =>
      have hj : j < (addGrowth (some s) rest).length := by
        simpa [addGrowth] using Nat.lt_of_succ_lt_succ h
      have hj' : j < rest.length := Nat.lt_of_succ_lt_succ h'
      exact ih (some s) j hj hj'

theorem addGrowth_get_succ (l : List PeriodSummary) (p : Option PeriodSummary)
    (i : ℕ) (h : i + 1 < (addGrowth p l).length)
    (h1 : i < l.length) (h2 : i + 1 < l.length) :
    (addGrowth p l).get ⟨i + 1, h⟩
      = setGrowth (some (l.get ⟨i, h1⟩)) (l.get ⟨i + 1, h2⟩) := by
  induction l generalizing p i with
  | nil => simp at h1
  | cons s rest ih =>
    cases i with
    | zero =>
      cases rest with
      | nil => simp [addGrowth] at h2
      | cons t rest2 => rfl
    | succ j =>
      have hj : j + 1 < (addGrowth (some s) rest).length := by
        simpa [addGrowth] using Nat.lt_of_succ_lt_succ h
      have hj1 : j < rest.length := Nat.lt_of_succ_lt_succ h1
      have hj2 : j + 1 < rest.length := Nat.lt_of_succ_lt_succ h2
      exact ih (some s) j hj hj1 hj2

theorem mem_addGrowth {s : PeriodSummary} {p : Option PeriodSummary}
    {l : List PeriodSummary} (h : s ∈ addGrowth p l) :
    ∃ q t, t ∈ l ∧ s = setGrowth q t := by
  induction l generalizing p with
  | nil => simp [addGrowth] at h
  | cons a rest ih =>
    rw [addGrowth, List.mem_cons] at h
    rcases h with h | h
    · exact ⟨p, a, List.mem_cons_self a rest, h⟩
    · obtain ⟨q, t, ht, rfl⟩ := ih h
      exact ⟨q, t, List.mem_cons_of_mem a ht, rfl⟩

theorem periodKeys_pairwise_lt (rs : List CleanedRecord) :
    List.Pairwise keyLt (periodKeys rs) := by
  have hs : List.Pairwise keyLe (periodKeys rs) :=
    List.sorted_insertionSort keyLe _
  have hnd : (periodKeys rs).Nodup :=
    (List.perm_insertionSort keyLe _).symm.nodup (List.nodup_dedup _)
  refine (hs.and hnd).imp ?_
  rintro a b ⟨hle, hne⟩
  rcases hle with h | ⟨hy, hm⟩
  · exact Or.inl h
  · refine Or.inr ⟨hy, lt_of_le_of_ne hm ?_⟩
    intro hmm
    exact hne (Prod.ext hy hmm)

theorem addGrowth_map_key (p : Option PeriodSummary) (l : List PeriodSummary) :
    (addGrowth p l).map (fun s => (s.year, s.month))
      = l.map (fun s => (s.year, s.month)) := by
  induction l generalizing p with
  | nil => rfl
  | cons s rest ih =>
    have hk := setGrowth_key p s
    simp [addGrowth, ih, hk.1, hk.2]

/-- C3: the monthly summary is chronologically sorted by (year, month) with
no duplicate keys, the first entry's growth fields are null (`NaN`), and
every later entry's revenue growth is `(rev[i] − rev[i−1]) / rev[i−1] × 100`
computed from the stored prior period revenue (when that denominator is
nonzero). -/
theorem c3_trend_summary (rs : List CleanedRecord) :
    List.Pairwise (fun a b => keyLt (a.year, a.month) (b.year, b.month))
        (analyzeSalesTrends rs)
    ∧ (∀ s, (analyzeSalesTrends rs).head? = some s →
        s.revenueGrowth = FVal.nan ∧ s.customerGrowth = FVal.nan)
    ∧ ∀ i (h1 : i < (analyzeSalesTrends rs).length)
        (h2 : i + 1 < (analyzeSalesTrends rs).length),
        ((analyzeSalesTrends rs).get ⟨i, h1⟩).totalRevenue ≠ 0 →
        ((analyzeSalesTrends rs).get ⟨i + 1, h2⟩).revenueGrowth
          = FVal.fin
              ((((analyzeSalesTrends rs).get ⟨i + 1, h2⟩).totalRevenue
                  - ((analyzeSalesTrends rs).get ⟨i, h1⟩).totalRevenue)
                / ((analyzeSalesTrends rs).get ⟨i, h1⟩).totalRevenue * 100) := by
  refine ⟨?_, ?_, ?_⟩
  · have hbase : List.Pairwise keyLt
        (((periodKeys rs).map (periodAgg rs)).map (fun s => (s.year, s.month))) := by
      have : ((periodKeys rs).map (periodAgg rs)).map (fun s => (s.year, s.month))
          = periodKeys rs := by
        rw [List.map_map]
        exact List.map_id'' (fun k => rfl) _
      rw [this]
      exact periodKeys_pairwise_lt rs
    have hout : (analyzeSalesTrends rs).map (fun s => (s.year, s.month))
        = ((periodKeys rs).map (periodAgg rs)).map (fun s => (s.year, s.month)) :=
      addGrowth_map_key none _
    have := hbase
    rw [← hout] at this
    exact List.pairwise_map.mp this
  · intro s hs
    rw [analyzeSalesTrends] at hs
    cases hb : (periodKeys rs).map (periodAgg rs) with
    | nil => rw [hb] at hs; simp [addGrowth] at hs
    | cons t rest =>
      rw [hb] at hs
      simp only [addGrowth, List.head?_cons, Option.some_inj] at hs
      subst hs
      exact ⟨rfl, rfl⟩
  · intro i h1 h2 hne
    have hlen : (analyzeSalesTrends rs).length
        = ((periodKeys rs).map (periodAgg rs)).length := addGrowth_length _ _
    have hb1 : i < ((periodKeys rs).map (periodAgg rs)).length := hlen ▸ h1
    have hb2 : i + 1 < ((periodKeys rs).map (periodAgg rs)).length := hlen ▸ h2
    have hout : (analyzeSalesTrends rs).get ⟨i + 1, h2⟩
        = setGrowth (some (((periodKeys rs).map (periodAgg rs)).get ⟨i, hb1⟩))
            (((periodKeys rs).map (periodAgg rs)).get ⟨i + 1, hb2⟩) :=
      addGrowth_get_succ ((periodKeys rs).map (periodAgg rs)) none i h2 hb1 hb2
    have hrev : ((analyzeSalesTrends rs).get ⟨i, h1⟩).totalRevenue
        = (((periodKeys rs).map (periodAgg rs)).get ⟨i, hb1⟩).totalRevenue :=
      addGrowth_get_totalRevenue _ none i h1 hb1
    rw [hout, setGrowth_some_revenueGrowth, setGrowth_totalRevenue, hrev]
    rw [pctChange100, if_neg (fun h0 => hne (hrev.trans h0))]

/-- Build a cleaned row with consistent derived fields, for the concrete
examples below. -/
def mkClean (inv stock cust : String) (q : ℤ) (p : ℚ) (es y : ℤ) (m : ℕ) : CleanedRecord :=
  { invoiceNo := inv
    stockCode := stock
    description := "ITEM"
    quantity := q
    unitPrice := p
    customerId := cust
    invoiceDate := { epochSec := es, year := y, month := m, dayOfWeek := "Monday", hour := 9 }
    year := y
    month := m
    dayOfWeek := "Monday"
    hour := 9
    totalAmount := (q : ℚ) * p }

/-- Two periods with revenues 100 and 150: the second period's revenue
growth must come out as 50%. -/
def ex3 : List CleanedRecord :=
  [mkClean "1001" "S1" "C1" 1 100 100 2021 1,
   mkClean "1002" "S1" "C1" 1 150 200 2021 2]

/-- Witness for C3: on the concrete two-period input `ex3` the first
period's revenue is nonzero and the second period's growth equals the exact
percent-change formula (numerically, 50%). -/
theorem c3_trend_summary_witness :
    ((analyzeSalesTrends ex3).get ⟨0, by decide⟩).totalRevenue ≠ 0 ∧
    ((analyzeSalesTrends ex3).get ⟨0 + 1, by decide⟩).revenueGrowth
      = FVal.fin
          ((((analyzeSalesTrends ex3).get ⟨0 + 1, by decide⟩).totalRevenue
              - ((analyzeSalesTrends ex3).get ⟨0, by decide⟩).totalRevenue)
            / ((analyzeSalesTrends ex3).get ⟨0, by decide⟩).totalRevenue * 100) :=
  ⟨by decide, (c3_trend_summary ex3).2.2 0 (by decide) (by decide) (by decide)⟩

/-- C4 counterexample input: the first period's only transaction totals
1/1000, which `round(2)` turns into a stored revenue of exactly 0; the
second period's revenue is 1. -/
def ex4 : List CleanedRecord :=
  [mkClean "1001" "S1" "C1" 1 (1/1000) 100 2021 1,
   mkClean "1002" "S1" "C1" 1 1 200 2021 2]

/-- Counterexample to C4 as stated: with a zero-revenue preceding period and
a nonzero current period, `pct_change` produces positive infinity — an
infinite number, not a null (`NaN`) value. -/
theorem c4_null_growth_counterexample :
    ((analyzeSalesTrends ex4).get ⟨0, by decide⟩).totalRevenue = 0 ∧
    ((analyzeSalesTrends ex4).get ⟨1, by decide⟩).revenueGrowth = FVal.posInf ∧
    FVal.posInf ≠ FVal.nan :=
  ⟨by decide, by decide, by decide⟩

theorem periodAgg_uniqueCustomers_pos (rs : List CleanedRecord) (k : ℤ × ℕ)
    (hk : k ∈ periodKeys rs) : 0 < (periodAgg rs k).uniqueCustomers := by
  have hk' : k ∈ (rs.map (fun r => (r.year, r.month))).dedup :=
    (List.perm_insertionSort keyLe _).subset hk
  rw [List.mem_dedup, List.mem_map] at hk'
  obtain ⟨r, hr, hkey⟩ := hk'
  have hrg : r ∈ rs.filter (fun r => decide (r.year = k.1) && decide (r.month = k.2)) := by
    rw [List.mem_filter]
    refine ⟨hr, ?_⟩
    have h1 : r.year = k.1 := by rw [← hkey]
    have h2 : r.month = k.2 := by rw [← hkey]
    simp [h1, h2]
  have hmem : r.customerId
      ∈ ((rs.filter (fun r => decide (r.year = k.1) && decide (r.month = k.2))).map
          CleanedRecord.customerId).dedup := by
    rw [List.mem_dedup]
    exact List.mem_map_of_mem _ hrg
  simp only [periodAgg]
  exact List.length_pos.mpr (List.ne_nil_of_mem hmem)

/-- C4 (amended): when the preceding period's revenue is zero, the reported
revenue growth is null (`NaN`) only if the current period's revenue is also
zero; for a nonzero current revenue it is an infinite value (`+inf` or
`-inf`), not a null. Customer growth never hits a zero denominator, since
every period's distinct-customer count is at least 1. -/
theorem c4_zero_denominator_growth (rs : List CleanedRecord) (i : ℕ)
    (h1 : i < (analyzeSalesTrends rs).length)
    (h2 : i + 1 < (analyzeSalesTrends rs).length)
    (hz : ((analyzeSalesTrends rs).get ⟨i, h1⟩).totalRevenue = 0) :
    (((analyzeSalesTrends rs).get ⟨i + 1, h2⟩).revenueGrowth
        = if ((analyzeSalesTrends rs).get ⟨i + 1, h2⟩).totalRevenue = 0 then FVal.nan
          else if 0 < ((analyzeSalesTrends rs).get ⟨i + 1, h2⟩).totalRevenue
               then FVal.posInf else FVal.negInf)
    ∧ ∀ s ∈ analyzeSalesTrends rs, 0 < s.uniqueCustomers := by
  constructor
  · have hlen : (analyzeSalesTrends rs).length
        = ((periodKeys rs).map (periodAgg rs)).length := addGrowth_length _ _
    have hb1 : i < ((periodKeys rs).map (periodAgg rs)).length := hlen ▸ h1
    have hb2 : i + 1 < ((periodKeys rs).map (periodAgg rs)).length := hlen ▸ h2
    have hout : (analyzeSalesTrends rs).get ⟨i + 1, h2⟩
        = setGrowth (some (((periodKeys rs).map (periodAgg rs)).get ⟨i, hb1⟩))
            (((periodKeys rs).map (periodAgg rs)).get ⟨i + 1, hb2⟩) :=
      addGrowth_get_succ ((periodKeys rs).map (periodAgg rs)) none i h2 hb1 hb2
    have hrev : ((analyzeSalesTrends rs).get ⟨i, h1⟩).totalRevenue
        = (((periodKeys rs).map (periodAgg rs)).get ⟨i, hb1⟩).totalRevenue :=
      addGrowth_get_totalRevenue _ none i h1 hb1
    have hz' : (((periodKeys rs).map (periodAgg rs)).get ⟨i, hb1⟩).totalRevenue = 0 := by
      rw [← hrev]; exact hz
    rw [hout, setGrowth_some_revenueGrowth, setGrowth_totalRevenue,
      pctChange100, if_pos hz']
  · intro s hs
    obtain ⟨q, t, ht, rfl⟩ := mem_addGrowth hs
    rw [setGrowth_uniqueCustomers]
    rw [List.mem_map] at ht
    obtain ⟨k, hk, rfl⟩ := ht
    exact periodAgg_uniqueCustomers_pos rs k hk

/-- Witness for the amended C4: on `ex4` (preceding revenue 0, current
revenue 1 > 0) the reported growth evaluates to positive infinity. -/
theorem c4_zero_denominator_growth_witness :
    ((analyzeSalesTrends ex4).get ⟨0 + 1, by decide⟩).revenueGrowth
      = if ((analyzeSalesTrends ex4).get ⟨0 + 1, by decide⟩).totalRevenue = 0 then FVal.nan
        else if 0 < ((analyzeSalesTrends ex4).get ⟨0 + 1, by decide⟩).totalRevenue
             then FVal.posInf else FVal.negInf :=
  (c4_zero_denominator_growth ex4 0 (by decide) (by decide) (by decide)).1

/-- One row of the product table built by `plot_top_products`. -/
structure EntitySummary where
  stockCode : String
  description : String
  totalQuantitySold : ℤ
  totalRevenue : ℚ
  numberOfOrders : ℕ
  uniqueCustomers : ℕ
  avgUnitPrice : ℚ
  revenuePerCustomer : ℚ
  avgQuantityPerOrder : ℚ
deriving DecidableEq, Repr

/-- The (StockCode, Description) grouping key. -/
def entityKey (r : CleanedRecord) : String × String := (r.stockCode, r.description)

/-- Lexicographic order on (StockCode, Description) keys, the order in which
`groupby(['StockCode', 'Description'])` emits the groups. -/
def skeyLe (a b : String × String) : Prop := a.1 < b.1 ∨ (a.1 = b.1 ∧ a.2 ≤ b.2)

instance : DecidableRel skeyLe := fun a b => by
  unfold skeyLe; infer_instance

instance : IsTotal (String × String) skeyLe := ⟨fun a b => by
  unfold skeyLe
  rcases lt_trichotomy a.1 b.1 with h | h | h
  · exact Or.inl (Or.inl h)
  · rcases le_total a.2 b.2 with h2 | h2
    · exact Or.inl (Or.inr ⟨h, h2⟩)
    · exact Or.inr (Or.inr ⟨h.symm, h2⟩)
  · exact Or.inr (Or.inl h)⟩

instance : IsTrans (String × String) skeyLe := ⟨fun a b c hab hbc => by
  unfold skeyLe at hab hbc ⊢
  rcases hab with h1 | ⟨e1, l1⟩ <;> rcases hbc with h2 | ⟨e2, l2⟩
  · exact Or.inl (h1.trans h2)
  · exact Or.inl (e2 ▸ h1)
  · exact Or.inl (lt_of_le_of_lt (le_of_eq e1) h2)
  · exact Or.inr ⟨e1.trans e2, l1.trans l2⟩⟩

/-- The distinct (StockCode, Description) keys, in group order. -/
def entityKeys (rs : List CleanedRecord) : List (String × String) :=
  ((rs.map entityKey).dedup).insertionSort skeyLe

/-- The aggregation row of one product group, with the `round(2)` applied by
the source and the two derived per-group ratios. -/
def entityAgg (rs : List CleanedRecord) (k : String × String) : EntitySummary :=
  let g := rs.filter (fun r => decide (r.stockCode = k.1) && decide (r.description = k.2))
  let qty := (g.map CleanedRecord.quantity).sum
  let rev := round2 ((g.map CleanedRecord.totalAmount).sum)
  let orders := ((g.map CleanedRecord.invoiceNo).dedup).length
  let custs := ((g.map CleanedRecord.customerId).dedup).length
  { stockCode := k.1
    description := k.2
    totalQuantitySold := qty
    totalRevenue := rev
    numberOfOrders := orders
    uniqueCustomers := custs
    avgUnitPrice := round2 ((g.map CleanedRecord.unitPrice).sum / (g.length : ℚ))
    revenuePerCustomer := round2 (rev / (custs : ℚ))
    avgQuantityPerOrder := round2 ((qty : ℚ) / (orders : ℚ)) }

/-- The full per-product table, one row per distinct key, in group order. -/
def productAnalysis (rs : List CleanedRecord) : List EntitySummary :=
  (entityKeys rs).map (entityAgg rs)

/-- The order used by `nlargest(n, 'Total_Revenue')` on position-indexed
rows: higher revenue first, ties broken by the earlier row (keep='first'). -/
def rankLe (a b : ℕ × EntitySummary) : Prop :=
  b.2.totalRevenue < a.2.totalRevenue
    ∨ (a.2.totalRevenue = b.2.totalRevenue ∧ a.1 ≤ b.1)

instance : DecidableRel rankLe := fun a b => by
  unfold rankLe; infer_instance

instance : IsTotal (ℕ × EntitySummary) rankLe := ⟨fun a b => by
  unfold rankLe
  rcases lt_trichotomy a.2.totalRevenue b.2.totalRevenue with h | h | h
  · exact Or.inr (Or.inl h)
  · rcases Nat.le_total a.1 b.1 with h2 | h2
    · exact Or.inl (Or.inr ⟨h, h2⟩)
    · exact Or.inr (Or.inr ⟨h.symm, h2⟩)
  · exact Or.inl (Or.inl h)⟩

instance : IsTrans (ℕ × EntitySummary) rankLe := ⟨fun a b c hab hbc => by
  unfold rankLe at hab hbc ⊢
  rcases hab with h1 | ⟨e1, l1⟩ <;> rcases hbc with h2 | ⟨e2, l2⟩
  · exact Or.inl (h2.trans h1)
  · exact Or.inl (e2 ▸ h1)
  · exact Or.inl (lt_of_lt_of_le h2 (le_of_eq e1.symm))
  · exact Or.inr ⟨e1.trans e2, l1.trans l2⟩⟩

/-- The product table rows paired with their positions and stably sorted by
descending revenue, as `nlargest` orders them. -/
def rankedProducts (rs : List CleanedRecord) : List (ℕ × EntitySummary) :=
  (productAnalysis rs).enum.insertionSort rankLe

/-- `plot_top_products` (sans plotting): `nlargest(n, 'Total_Revenue')`. -/
def plotTopProducts (rs : List CleanedRecord) (n : ℕ) : List EntitySummary :=
  ((rankedProducts rs).take n).map Prod.snd

theorem rankedProducts_length (rs : List CleanedRecord) :
    (rankedProducts rs).length = (entityKeys rs).length := by
  rw [rankedProducts, List.length_insertionSort, List.enum_length,
    productAnalysis, List.length_map]

theorem rankedProducts_pairwise (rs : List CleanedRecord) :
    List.Pairwise
      (fun a b => b.2.totalRevenue < a.2.totalRevenue
        ∨ (a.2.totalRevenue = b.2.totalRevenue ∧ a.1 < b.1))
      (rankedProducts rs) := by
  have hs : List.Pairwise rankLe (rankedProducts rs) :=
    List.sorted_insertionSort rankLe _
  have hnodup : ((rankedProducts rs).map Prod.fst).Nodup := by
    have hperm : List.Perm ((rankedProducts rs).map Prod.fst)
        ((productAnalysis rs).enum.map Prod.fst) :=
      (List.perm_insertionSort rankLe _).map Prod.fst
    have : ((productAnalysis rs).enum.map Prod.fst).Nodup := by
      rw [List.enum_map_fst]
      exact List.nodup_range _
    exact hperm.symm.nodup this
  have hne : List.Pairwise (fun a b : ℕ × EntitySummary => a.1 ≠ b.1)
      (rankedProducts rs) := List.pairwise_map.mp hnodup
  refine (hs.and hne).imp ?_
  rintro a b ⟨hle, hne1⟩
  rcases hle with h | ⟨he, hi⟩
  · exact Or.inl h
  · exact Or.inr ⟨he, lt_of_le_of_ne hi hne1⟩

/-- C5: the ranked product list has length `min n (distinct key count)`, is
sorted by weakly descending revenue, breaks revenue ties by group order
(strictly increasing positions), and is empty for `n = 0`. -/
theorem c5_top_products (rs : List CleanedRecord) (n : ℕ) :
    (plotTopProducts rs n).length = min n (entityKeys rs).length
    ∧ List.Pairwise (fun a b => b.totalRevenue ≤ a.totalRevenue) (plotTopProducts rs n)
    ∧ List.Pairwise
        (fun a b => b.2.totalRevenue < a.2.totalRevenue
          ∨ (a.2.totalRevenue = b.2.totalRevenue ∧ a.1 < b.1))
        (rankedProducts rs)
    ∧ plotTopProducts rs 0 = [] := by
  refine ⟨?_, ?_, rankedProducts_pairwise rs, ?_⟩
  · rw [plotTopProducts, List.length_map, List.length_take, rankedProducts_length]
  · have hp := (rankedProducts_pairwise rs).sublist (List.take_sublist n _)
    rw [plotTopProducts, List.pairwise_map]
    refine hp.imp ?_
    rintro a b (h | ⟨he, -⟩)
    · exact le_of_lt h
    · exact le_of_eq he.symm
  · rfl

/-- One row of the per-customer table built by `analyze_customer_behavior`. -/
structure CustomerSummary where
  customerId : String
  totalOrders : ℕ
  totalSpent : ℚ
  avgOrderValue : ℚ
  totalItems : ℤ
  firstPurchase : ℤ
  lastPurchase : ℤ
  uniqueProducts : ℕ
  customerLifetimeDays : ℤ
deriving DecidableEq, Repr

/-- Minimum of a list of integers (pandas `min` aggregate); only ever used
on nonempty groups. -/
def listMin : List ℤ → ℤ
  | [] => 0
  | x :: xs => xs.foldl min x

/-- Maximum of a list of integers (pandas `max` aggregate); only ever used
on nonempty groups. -/
def listMax : List ℤ → ℤ
  | [] => 0
  | x :: xs => xs.foldl max x

theorem foldl_min_le (l : List ℤ) (a : ℤ) : l.foldl min a ≤ a := by
  induction l generalizing a with
  | nil => exact le_refl a
  | cons x xs ih => exact le_trans (ih (min a x)) (min_le_left a x)

theorem le_foldl_max (l : List ℤ) (a : ℤ) : a ≤ l.foldl max a := by
  induction l generalizing a with
  | nil => exact le_refl a
  | cons x xs ih => exact le_trans (le_max_left a x) (ih (max a x))

theorem listMin_le_listMax {l : List ℤ} (h : l ≠ []) : listMin l ≤ listMax l := by
  cases l with
  | nil => exact absurd rfl h
  | cons x xs =>
    exact le_trans (foldl_min_le xs x) (le_foldl_max xs x)

/-- The distinct customer ids, in the sorted order `groupby('CustomerID')`
emits the groups. -/
def customerKeys (rs : List CleanedRecord) : List String :=
  ((rs.map CleanedRecord.customerId).dedup).insertionSort (· ≤ ·)

/-- The aggregation row of one customer group: distinct-invoice count, sum
and mean of total amount (rounded to 2 decimals), item count, first/last
purchase timestamps, distinct products, and the derived
`Customer_Lifetime_Days = (Last_Purchase - First_Purchase).dt.days`
(floor division of the timestamp difference by one day). -/
def customerAgg (rs : List CleanedRecord) (c : String) : CustomerSummary :=
  let g := rs.filter (fun r => decide (r.customerId = c))
  let spentSum := (g.map CleanedRecord.totalAmount).sum
  let times := g.map (fun r => r.invoiceDate.epochSec)
  { customerId := c
    totalOrders := ((g.map CleanedRecord.invoiceNo).dedup).length
    totalSpent := round2 spentSum
    avgOrderValue := round2 (spentSum / (g.length : ℚ))
    totalItems := (g.map CleanedRecord.quantity).sum
    firstPurchase := listMin times
    lastPurchase := listMax times
    uniqueProducts := ((g.map CleanedRecord.stockCode).dedup).length
    customerLifetimeDays := Int.fdiv (listMax times - listMin times) 86400 }

/-- `analyze_customer_behavior` (sans printing): one row per distinct
customer id. -/
def analyzeCustomerBehavior (rs : List CleanedRecord) : List CustomerSummary :=
  (customerKeys rs).map (customerAgg rs)

/-- C8: every customer's lifetime in days is non-negative, and a customer
with exactly one transaction row has lifetime exactly 0. -/
theorem c8_customer_lifetime (rs : List CleanedRecord) (s : CustomerSummary)
    (h : s ∈ analyzeCustomerBehavior rs) :
    0 ≤ s.customerLifetimeDays ∧
      ((rs.filter (fun r => decide (r.customerId = s.customerId))).length = 1 →
        s.customerLifetimeDays = 0) := by
  rw [analyzeCustomerBehavior, List.mem_map] at h
  obtain ⟨c, hc, rfl⟩ := h
  have hcid : (customerAgg rs c).customerId = c := rfl
  rw [hcid]
  have hc' : c ∈ (rs.map CleanedRecord.customerId).dedup :=
    (List.perm_insertionSort _ _).subset hc
  rw [List.mem_dedup, List.mem_map] at hc'
  obtain ⟨r, hr, hrc⟩ := hc'
  have hrg : r ∈ rs.filter (fun r => decide (r.customerId = c)) := by
    rw [List.mem_filter]
    exact ⟨hr, by simp [hrc]⟩
  have htimes : (rs.filter (fun r => decide (r.customerId = c))).map
      (fun r => r.invoiceDate.epochSec) ≠ [] := by
    intro hnil
    rw [List.map_eq_nil_iff] at hnil
    rw [hnil] at hrg
    exact List.not_mem_nil r hrg
  constructor
  · show 0 ≤ Int.fdiv _ 86400
    refine Int.fdiv_nonneg ?_ (by norm_num)
    exact sub_nonneg.mpr (listMin_le_listMax htimes)
  · intro hlen
    obtain ⟨r0, hg1⟩ := List.length_eq_one.mp hlen
    show Int.fdiv (listMax _ - listMin _) 86400 = 0
    rw [hg1]
    show Int.fdiv
        (listMax [r0.invoiceDate.epochSec] - listMin [r0.invoiceDate.epochSec]) 86400 = 0
    rw [listMax, listMin]
    simp [Int.zero_fdiv]

/-- A one-row input whose only customer has a single transaction. -/
def ex8 : List CleanedRecord := [mkClean "1001" "S1" "C1" 2 3 50000 2021 1]

/-- Witness for C8: on the one-transaction input `ex8` the single customer's
lifetime is non-negative and, having exactly one transaction, equals 0. -/
theorem c8_customer_lifetime_witness :
    0 ≤ (customerAgg ex8 "C1").customerLifetimeDays ∧
      (customerAgg ex8 "C1").customerLifetimeDays = 0 :=
  ⟨(c8_customer_lifetime ex8 (customerAgg ex8 "C1") (by decide)).1,
   (c8_customer_lifetime ex8 (customerAgg ex8 "C1") (by decide)).2 (by decide)⟩

/-- The order used by `nlargest(k, 'Total_Spent')` on position-indexed
customer rows: higher spend first, ties broken by the earlier row. -/
def custRankLe (a b : ℕ × CustomerSummary) : Prop :=
  b.2.totalSpent < a.2.totalSpent
    ∨ (a.2.totalSpent = b.2.totalSpent ∧ a.1 ≤ b.1)

instance : DecidableRel custRankLe := fun a b => by
  unfold custRankLe; infer_instance

/-- The top `int(len(customer_stats) * 0.1)` customers by total spend
(`nlargest(int(len * 0.1), 'Total_Spent')`): truncating division, with no
lower floor of one customer. -/
def topCustomers (rs : List CleanedRecord) : List CustomerSummary :=
  ((((analyzeCustomerBehavior rs).enum.insertionSort custRankLe).take
      ((analyzeCustomerBehavior rs).length / 10)).map Prod.snd)

/-- Combined spend of the selected top customers. -/
def topSpend (rs : List CleanedRecord) : ℚ :=
  ((topCustomers rs).map CustomerSummary.totalSpent).sum

/-- Combined spend of all customers. -/
def totalSpend (rs : List CleanedRecord) : ℚ :=
  ((analyzeCustomerBehavior rs).map CustomerSummary.totalSpent).sum

/-- The printed concentration metric
`top spend / total spend * 100`, with IEEE semantics when the total is 0. -/
def concentrationTop10 (rs : List CleanedRecord) : FVal :=
  if totalSpend rs = 0 then
    if topSpend rs = 0 then FVal.nan
    else if 0 < topSpend rs then FVal.posInf else FVal.negInf
  else FVal.fin (topSpend rs / totalSpend rs * 100)

/-- A one-customer input: the population is nonempty yet `int(1 * 0.1) = 0`
customers are selected. -/
def ex6 : List CleanedRecord := [mkClean "1001" "S1" "C1" 1 10 100 2021 1]

/-- Counterexample to C6 as stated: with exactly one customer the code
selects `int(1 * 0.1) = 0` top customers — not at least one — and reports a
concentration of 0%, not the 100% that the top-⌈10%⌉ selection of the claim
would give. -/
theorem c6_concentration_counterexample :
    (analyzeCustomerBehavior ex6).length = 1 ∧
    topCustomers ex6 = [] ∧
    concentrationTop10 ex6 = FVal.fin 0 ∧
    (FVal.fin 0 : FVal) ≠ FVal.fin 100 :=
  ⟨by decide, by decide, by decide, by decide⟩

theorem roundHalfEven_nonneg {q : ℚ} (h : 0 ≤ q) : 0 ≤ roundHalfEven q := by
  have hf : (0 : ℤ) ≤ ⌊q⌋ := Int.floor_nonneg.mpr h
  unfold roundHalfEven
  split
  · exact hf
  · split
    · omega
    · split
      · exact hf
      · omega

theorem round2_nonneg {q : ℚ} (h : 0 ≤ q) : 0 ≤ round2 q := by
  unfold round2
  have h1 : (0 : ℤ) ≤ roundHalfEven (q * 100) :=
    roundHalfEven_nonneg (by positivity)
  have h2 : (0 : ℚ) ≤ (roundHalfEven (q * 100) : ℚ) := by exact_mod_cast h1
  positivity

theorem totalSpent_nonneg (rs : List CleanedRecord)
    (hpos : ∀ r ∈ rs, 0 ≤ r.totalAmount) :
    ∀ s ∈ analyzeCustomerBehavior rs, 0 ≤ s.totalSpent := by
  intro s hs
  rw [analyzeCustomerBehavior, List.mem_map] at hs
  obtain ⟨c, -, rfl⟩ := hs
  show (0 : ℚ) ≤ round2 _
  refine round2_nonneg (List.sum_nonneg ?_)
  intro x hx
  rw [List.mem_map] at hx
  obtain ⟨r, hrg, rfl⟩ := hx
  exact hpos r (List.mem_filter.mp hrg).1

theorem topSpend_le_totalSpend (rs : List CleanedRecord)
    (hpos : ∀ r ∈ rs, 0 ≤ r.totalAmount) :
    topSpend rs ≤ totalSpend rs := by
  have hnn := totalSpent_nonneg rs hpos
  have hperm : List.Perm
      (((analyzeCustomerBehavior rs).enum.insertionSort custRankLe).map
        (fun p => p.2.totalSpent))
      ((analyzeCustomerBehavior rs).enum.map (fun p => p.2.totalSpent)) :=
    (List.perm_insertionSort custRankLe _).map _
  have henum : (analyzeCustomerBehavior rs).enum.map (fun p => p.2.totalSpent)
      = (analyzeCustomerBehavior rs).map CustomerSummary.totalSpent := by
    have h1 : (analyzeCustomerBehavior rs).enum.map (fun p => p.2.totalSpent)
        = ((analyzeCustomerBehavior rs).enum.map Prod.snd).map
            CustomerSummary.totalSpent := by
      rw [List.map_map]
      rfl
    rw [h1, List.enum_map_snd]
  have hsub : List.Sublist
      ((((analyzeCustomerBehavior rs).enum.insertionSort custRankLe).take
          ((analyzeCustomerBehavior rs).length / 10)).map (fun p => p.2.totalSpent))
      ((((analyzeCustomerBehavior rs).enum.insertionSort custRankLe)).map
          (fun p => p.2.totalSpent)) :=
    (List.take_sublist _ _).map _
  have hnonneg : ∀ x ∈ (((analyzeCustomerBehavior rs).enum.insertionSort
      custRankLe)).map (fun p => p.2.totalSpent), 0 ≤ x := by
    intro x hx
    rw [List.mem_map] at hx
    obtain ⟨p, hp, rfl⟩ := hx
    have hp' : p ∈ (analyzeCustomerBehavior rs).enum :=
      (List.perm_insertionSort custRankLe _).subset hp
    have : p.2 ∈ analyzeCustomerBehavior rs := by
      have := List.mem_map_of_mem Prod.snd hp'
      rw [List.enum_map_snd] at this
      exact this
    exact hnn p.2 this
  have h1 : topSpend rs
      = ((((analyzeCustomerBehavior rs).enum.insertionSort custRankLe).take
          ((analyzeCustomerBehavior rs).length / 10)).map
            (fun p => p.2.totalSpent)).sum := by
    rw [topSpend, topCustomers, List.map_map]
    rfl
  have h2 : totalSpend rs
      = ((((analyzeCustomerBehavior rs).enum.insertionSort custRankLe)).map
          (fun p => p.2.totalSpent)).sum := by
    rw [totalSpend, ← henum]
    exact (hperm.sum_eq).symm
  rw [h1, h2]
  exact hsub.sum_le_sum hnonneg

theorem topSpend_nonneg (rs : List CleanedRecord)
    (hpos : ∀ r ∈ rs, 0 ≤ r.totalAmount) : 0 ≤ topSpend rs := by
  refine List.sum_nonneg ?_
  intro x hx
  rw [List.mem_map] at hx
  obtain ⟨s, hs, rfl⟩ := hx
  rw [topCustomers, List.mem_map] at hs
  obtain ⟨p, hp, rfl⟩ := hs
  have hp1 : p ∈ (analyzeCustomerBehavior rs).enum.insertionSort custRankLe :=
    (List.take_sublist _ _).subset hp
  have hp2 : p ∈ (analyzeCustomerBehavior rs).enum :=
    (List.perm_insertionSort custRankLe _).subset hp1
  have : p.2 ∈ analyzeCustomerBehavior rs := by
    have := List.mem_map_of_mem Prod.snd hp2
    rw [List.enum_map_snd] at this
    exact this
  exact totalSpent_nonneg rs hpos p.2 this

/-- C6 (amended): the number of selected top customers is
`min (count / 10) count` — truncating 10%, possibly zero, with no
at-least-one floor — and when the total spend is positive the concentration
equals `top spend / total spend × 100`, a finite value between 0 and 100. -/
theorem c6_concentration_floor (rs : List CleanedRecord)
    (hpos : ∀ r ∈ rs, 0 ≤ r.totalAmount)
    (hden : 0 < totalSpend rs) :
    (topCustomers rs).length
        = min ((analyzeCustomerBehavior rs).length / 10)
            ((analyzeCustomerBehavior rs).length)
    ∧ concentrationTop10 rs = FVal.fin (topSpend rs / totalSpend rs * 100)
    ∧ 0 ≤ topSpend rs / totalSpend rs * 100
    ∧ topSpend rs / totalSpend rs * 100 ≤ 100 := by
  refine ⟨?_, ?_, ?_, ?_⟩
  · rw [topCustomers, List.length_map, List.length_take,
      List.length_insertionSort, List.enum_length]
  · rw [concentrationTop10, if_neg (ne_of_gt hden)]
  · have h1 := topSpend_nonneg rs hpos
    positivity
  · have hle : topSpend rs / totalSpend rs ≤ 1 :=
      (div_le_one hden).mpr (topSpend_le_totalSpend rs hpos)
    calc topSpend rs / totalSpend rs * 100 ≤ 1 * 100 :=
          mul_le_mul_of_nonneg_right hle (by norm_num)
      _ = 100 := one_mul 100

/-- Witness for the amended C6: on the one-customer input `ex6` (all totals
non-negative, total spend 10 > 0) the selection is empty
(`min (1/10) 1 = 0`) and the concentration is a finite value in [0, 100]
(numerically 0%). -/
theorem c6_concentration_floor_witness :
    (topCustomers ex6).length
        = min ((analyzeCustomerBehavior ex6).length / 10)
            ((analyzeCustomerBehavior ex6).length)
    ∧ concentrationTop10 ex6 = FVal.fin (topSpend ex6 / totalSpend ex6 * 100)
    ∧ 0 ≤ topSpend ex6 / totalSpend ex6 * 100
    ∧ topSpend ex6 / totalSpend ex6 * 100 ≤ 100 :=
  c6_concentration_floor ex6 (by decide) (by decide)

/-- `df['TotalAmount'].sum()` over the cleaned records. -/
def totalRevenueOf (rs : List CleanedRecord) : ℚ :=
  (rs.map CleanedRecord.totalAmount).sum

/-- `(df['InvoiceDate'].max() - df['InvoiceDate'].min()).days`: the report's
date-range span in whole days (floor division of the timestamp difference). -/
def dateRangeDays (rs : List CleanedRecord) : ℤ :=
  Int.fdiv
    (listMax (rs.map (fun r => r.invoiceDate.epochSec))
      - listMin (rs.map (fun r => r.invoiceDate.epochSec))) 86400

/-- `total_revenue / date_range` in `generate_comprehensive_report`: the
division is unguarded, so a zero span produces an IEEE special value rather
than a finite average. -/
def avgDailyRevenue (rs : List CleanedRecord) : FVal :=
  if dateRangeDays rs = 0 then
    if totalRevenueOf rs = 0 then FVal.nan
    else if 0 < totalRevenueOf rs then FVal.posInf else FVal.negInf
  else FVal.fin (totalRevenueOf rs / (dateRangeDays rs : ℚ))

/-- C10: for every non-empty cleaned record set whose timestamps span less
than one full day, the report's date range evaluates to 0 days and the
unguarded average-daily-revenue division divides by zero, producing no
finite value even though the record set is non-empty. -/
theorem c10_zero_day_span_division (rs : List CleanedRecord)
    (hne : rs ≠ [])
    (hspan : listMax (rs.map (fun r => r.invoiceDate.epochSec))
        - listMin (rs.map (fun r => r.invoiceDate.epochSec)) < 86400) :
    dateRangeDays rs = 0 ∧ ∀ q, avgDailyRevenue rs ≠ FVal.fin q := by
  have hmapne : rs.map (fun r => r.invoiceDate.epochSec) ≠ [] := by
    intro hnil
    rw [List.map_eq_nil_iff] at hnil
    exact hne hnil
  have h0 : dateRangeDays rs = 0 := by
    rw [dateRangeDays, Int.fdiv_eq_ediv _ (by norm_num)]
    exact Int.ediv_eq_zero_of_lt
      (sub_nonneg.mpr (listMin_le_listMax hmapne)) hspan
  refine ⟨h0, ?_⟩
  intro q
  rw [avgDailyRevenue, if_pos h0]
  split
  · simp
  · split <;> simp

/-- Witness for C10: `ex8` is non-empty with a single timestamp, so its span
is below one day; the date range is 0 and the average daily revenue is not
the finite value 6/0 would naively suggest. -/
theorem c10_zero_day_span_division_witness :
    dateRangeDays ex8 = 0 ∧ avgDailyRevenue ex8 ≠ FVal.fin 0 :=
  ⟨(c10_zero_day_span_division ex8 (by decide) (by decide)).1,
   (c10_zero_day_span_division ex8 (by decide) (by decide)).2 0⟩

/-- The fatal load-stage failures of §7 of the spec: the source table cannot
be read, or a required column is absent. Both surface as exceptions from
`pd.read_excel` / column access inside the `try` block of `main`. -/
inductive LoadError where
  | sourceUnavailable : LoadError
  | schemaMismatch : LoadError
deriving DecidableEq, Repr

/-- The results dictionary `main` returns on success. -/
structure AnalysisResults where
  cleanedData : List CleanedRecord
  monthlyTrends : List PeriodSummary
  topProducts : List EntitySummary
  customerAnalysis : List CustomerSummary
deriving DecidableEq, Repr

/-- `main`: the `try` body runs the whole pipeline; the bare
`except Exception` catches every failure — a load error, or the downstream
aggregations raising on an empty cleaned set (`idxmax` of an empty series) —
prints a message, and returns `None`. The caller receives `none` with no
error information. -/
def main (input : Except LoadError (List RawRecord)) : Option AnalysisResults :=
  match input with
  | Except.error _ => none
  | Except.ok rs =>
    let c := loadAndCleanData rs
    if c.1.isEmpty then none
    else
      some
        { cleanedData := c.1
          monthlyTrends := analyzeSalesTrends c.1
          topProducts := plotTopProducts c.1 10
          customerAnalysis := analyzeCustomerBehavior c.1 }

/-- Counterexample to C9 as stated: two different fatal errors and the
empty-dataset failure all produce the same contextless `none` — the caller
gets an undifferentiated null result, with no stage name or counts, so
errors are exactly what the claim says they never are: swallowed. -/
theorem c9_error_swallowed_counterexample :
    main (Except.error LoadError.sourceUnavailable) = none ∧
    main (Except.error LoadError.schemaMismatch) = none ∧
    main (Except.ok []) = none :=
  ⟨rfl, rfl, by decide⟩

/-- C9 (amended): on any fatal load error the pipeline aborts and `main`
returns the undifferentiated `none`; likewise when cleaning leaves no
records (the empty-dataset failure of the downstream aggregations).
Diagnostic context is only printed, never returned to the caller. -/
theorem c9_fatal_errors_return_none (e : LoadError) (rs : List RawRecord) :
    main (Except.error e) = none ∧
    ((loadAndCleanData rs).1 = [] → main (Except.ok rs) = none) := by
  refine ⟨rfl, ?_⟩
  intro h
  simp [main, h]

/-- A raw row with no customer id: cleaning drops it, leaving an empty
cleaned set. -/
def exRaw9 : RawRecord :=
  { invoiceNo := "536370", stockCode := "21730", description := some "GLASS"
    quantity := 6, unitPrice := 4, customerId := none
    invoiceDate := exDate1 }

/-- Witness for the amended C9: a concrete unreadable source and a concrete
one-row input whose row is dropped for a missing customer id both yield
`none`. -/
theorem c9_fatal_errors_return_none_witness :
    main (Except.error LoadError.sourceUnavailable) = none ∧
    main (Except.ok [exRaw9]) = none :=
  ⟨(c9_fatal_errors_return_none LoadError.sourceUnavailable [exRaw9]).1,
   (c9_fatal_errors_return_none LoadError.sourceUnavailable [exRaw9]).2 (by decide)⟩

end DataProcessing
